import Mathlib

/-!
Debug-module bridge of tapasco-riscv: register map, dispatcher, duplex queue, clock driver.

A shallow embedding of

* `debugging/logdbg/common/dm_interface.hpp`
  (`DM_RegisterFile`, `DTM_RegisterFile`, `DM_Interface::invalid`, `DM_Interface::valid`,
  the declarations of `RequestResponseFIFO` and of `process_dtm` / `process_dm`), and
* `debugging/logdbg/scr1_sim/sim_src/sim_scr1_top_tb_axi_dmi.cpp`
  (`tick`, `run`, `stopCondition`, `onRisingEdge`, `onFallingEdge`, `sanityChecks`).

Machine integers are natural numbers or integers with explicit wrap-around:
`uint32_t` values are `Nat`, `vluint64_t` / `uint64_t` arithmetic is taken modulo `2 ^ 64`,
and the `int` loop counter of `tick` is an `Int` wrapped into the two's-complement range.
-/

namespace dm

/-! ## Register map (`struct DM_RegisterFile`, `struct DTM_RegisterFile`) -/

/-- The named members of `struct DM_RegisterFile`, in declaration order. -/
inductive DMReg where
  | DM_ABSTRACT_DATA_0
  | DM_ABSTRACT_DATA_1
  | DM_ABSTRACT_DATA_2
  | DM_ABSTRACT_DATA_3
  | DM_ABSTRACT_DATA_4
  | DM_ABSTRACT_DATA_5
  | DM_ABSTRACT_DATA_6
  | DM_ABSTRACT_DATA_7
  | DM_ABSTRACT_DATA_8
  | DM_ABSTRACT_DATA_9
  | DM_ABSTRACT_DATA_10
  | DM_ABSTRACT_DATA_11
  | DM_DEBUG_MODULE_CONTROL
  | DM_DEBUG_MODULE_STATUS
  | DM_HART_INFO
  | DM_HART_SUMMARY_1
  | DM_HART_ARRAY_WINDOW_SELECT
  | DM_HART_ARRAY_WINDOW
  | DM_ABSTRACT_CONTROL_AND_STATUS
  | DM_ABSTRACT_COMMAND
  | DM_ABSTRACT_COMMAND_AUTOEXEC
  | DM_CONFIGURATION_STRING_POINTER_0
  | DM_CONFIGURATION_STRING_POINTER_1
  | DM_CONFIGURATION_STRING_POINTER_2
  | DM_CONFIGURATION_STRING_POINTER_3
  | DM_NEXT_DEBUG_MODULE
  | DM_PROGRAM_BUFFER_0
  | DM_PROGRAM_BUFFER_1
  | DM_PROGRAM_BUFFER_2
  | DM_PROGRAM_BUFFER_3
  | DM_PROGRAM_BUFFER_4
  | DM_PROGRAM_BUFFER_5
  | DM_PROGRAM_BUFFER_6
  | DM_PROGRAM_BUFFER_7
  | DM_PROGRAM_BUFFER_8
  | DM_PROGRAM_BUFFER_9
  | DM_PROGRAM_BUFFER_10
  | DM_PROGRAM_BUFFER_11
  | DM_PROGRAM_BUFFER_12
  | DM_PROGRAM_BUFFER_13
  | DM_PROGRAM_BUFFER_14
  | DM_PROGRAM_BUFFER_15
  | DM_AUTHENTICATION_DATA
  | DM_HALT_SUMMARY_2
  | DM_HALT_SUMMARY_3
  | DM_SYSTEM_BUS_ADDRESS_3
  | DM_SYSTEM_BUS_ACCESS_CONTROL_AND_STATUS
  | DM_SYSTEM_BUS_ADDRESS_0
  | DM_SYSTEM_BUS_ADDRESS_1
  | DM_SYSTEM_BUS_ADDRESS_2
  | DM_SYSTEM_BUS_DATA_0
  | DM_SYSTEM_BUS_DATA_1
  | DM_SYSTEM_BUS_DATA_2
  | DM_SYSTEM_BUS_DATA_3
  | DM_HALT_SUMMARY_0
  deriving DecidableEq, Repr

/-- One member declaration of a register-file struct: either a named `uint32_t` member or an
anonymous reserved array `uint32_t _unused_k[n]`. -/
inductive Member where
  | named (r : DMReg)
  | unused (n : Nat)
  deriving DecidableEq, Repr

/-- Size in bytes of a `uint32_t`. -/
def sizeofWord : Nat := 4

/-- Number of 32-bit words a member declaration occupies. -/
def Member.words : Member → Nat
  | .named _ => 1
  | .unused n => n

/-- Size in bytes of a member (`sizeof`), all members being `uint32_t` or arrays of it. -/
def Member.bytes (m : Member) : Nat := sizeofWord * m.words

/-- The member declarations of `struct DM_RegisterFile`, in source order. -/
def DM_RegisterFile : List Member :=
  [ .unused 4,
    .named .DM_ABSTRACT_DATA_0, .named .DM_ABSTRACT_DATA_1, .named .DM_ABSTRACT_DATA_2,
    .named .DM_ABSTRACT_DATA_3, .named .DM_ABSTRACT_DATA_4, .named .DM_ABSTRACT_DATA_5,
    .named .DM_ABSTRACT_DATA_6, .named .DM_ABSTRACT_DATA_7, .named .DM_ABSTRACT_DATA_8,
    .named .DM_ABSTRACT_DATA_9, .named .DM_ABSTRACT_DATA_10, .named .DM_ABSTRACT_DATA_11,
    .named .DM_DEBUG_MODULE_CONTROL,
    .named .DM_DEBUG_MODULE_STATUS,
    .named .DM_HART_INFO,
    .named .DM_HART_SUMMARY_1,
    .named .DM_HART_ARRAY_WINDOW_SELECT,
    .named .DM_HART_ARRAY_WINDOW,
    .named .DM_ABSTRACT_CONTROL_AND_STATUS,
    .named .DM_ABSTRACT_COMMAND,
    .named .DM_ABSTRACT_COMMAND_AUTOEXEC,
    .named .DM_CONFIGURATION_STRING_POINTER_0, .named .DM_CONFIGURATION_STRING_POINTER_1,
    .named .DM_CONFIGURATION_STRING_POINTER_2, .named .DM_CONFIGURATION_STRING_POINTER_3,
    .named .DM_NEXT_DEBUG_MODULE,
    .unused 2,
    .named .DM_PROGRAM_BUFFER_0, .named .DM_PROGRAM_BUFFER_1, .named .DM_PROGRAM_BUFFER_2,
    .named .DM_PROGRAM_BUFFER_3, .named .DM_PROGRAM_BUFFER_4, .named .DM_PROGRAM_BUFFER_5,
    .named .DM_PROGRAM_BUFFER_6, .named .DM_PROGRAM_BUFFER_7, .named .DM_PROGRAM_BUFFER_8,
    .named .DM_PROGRAM_BUFFER_9, .named .DM_PROGRAM_BUFFER_10, .named .DM_PROGRAM_BUFFER_11,
    .named .DM_PROGRAM_BUFFER_12, .named .DM_PROGRAM_BUFFER_13, .named .DM_PROGRAM_BUFFER_14,
    .named .DM_PROGRAM_BUFFER_15,
    .named .DM_AUTHENTICATION_DATA,
    .unused 3,
    .named .DM_HALT_SUMMARY_2,
    .named .DM_HALT_SUMMARY_3,
    .unused 1,
    .named .DM_SYSTEM_BUS_ADDRESS_3,
    .named .DM_SYSTEM_BUS_ACCESS_CONTROL_AND_STATUS,
    .named .DM_SYSTEM_BUS_ADDRESS_0, .named .DM_SYSTEM_BUS_ADDRESS_1,
    .named .DM_SYSTEM_BUS_ADDRESS_2,
    .named .DM_SYSTEM_BUS_DATA_0, .named .DM_SYSTEM_BUS_DATA_1, .named .DM_SYSTEM_BUS_DATA_2,
    .named .DM_SYSTEM_BUS_DATA_3,
    .named .DM_HALT_SUMMARY_0 ]

/-- The member declarations of `struct DTM_RegisterFile`: the struct body is empty. -/
def DTM_RegisterFile : List Member := []

/-- Byte offset of every member of a packed struct, paired with the member: with
`__attribute__((packed))` a member starts where the previous one ends. -/
def packedOffsets : Nat → List Member → List (Nat × Member)
  | _, [] => []
  | off, m :: ms => (off, m) :: packedOffsets (off + m.bytes) ms

/-- Size in bytes of a packed struct (`sizeof`): the sum of the member sizes. -/
def packedSize (ms : List Member) : Nat := (ms.map Member.bytes).sum

/-- The struct seen as an array of 32-bit words: word `k` holds `some r` when it is the named
member `r` and `none` when it lies in a reserved array. -/
def wordView : List Member → List (Option DMReg)
  | [] => []
  | .named r :: ms => some r :: wordView ms
  | .unused n :: ms => List.replicate n none ++ wordView ms

/-- Byte offset of the named member `r` in the packed struct, if it is declared. -/
def byteOffsetOf (ms : List Member) (r : DMReg) : Option Nat :=
  ((packedOffsets 0 ms).find? (fun p => p.2 == Member.named r)).map Prod.fst

/-- Word index of the named member `r` when the struct is read as a `uint32_t` array. -/
def wordIndexOf (ms : List Member) (r : DMReg) : Option Nat :=
  (byteOffsetOf ms r).map (fun b => b / sizeofWord)

/-- Byte offset of the word with index `k` of the word view, found by walking the packed
members: the offset of the member containing it plus `sizeofWord` per element skipped. -/
def byteOffsetOfWord : List Member → Nat → Nat → Option Nat
  | [], _, _ => none
  | m :: ms, off, k =>
    if k < m.words then some (off + sizeofWord * k)
    else byteOffsetOfWord ms (off + m.bytes) (k - m.words)

/-- A word index is a defined slot when the word view holds a named member there. -/
def isDefinedSlot (ms : List Member) (k : Nat) : Bool :=
  match (wordView ms)[k]? with
  | some (some _) => true
  | _ => false

/-- A word index lies in a reserved gap when it is inside the struct but holds no named
member. -/
def isReservedWord (ms : List Member) (k : Nat) : Bool :=
  match (wordView ms)[k]? with
  | some none => true
  | _ => false

/-- Word indices covered by each reserved array, as (first index, length), in source order. -/
def reservedGaps (ms : List Member) : List (Nat × Nat) :=
  (packedOffsets 0 ms).filterMap (fun p =>
    match p.2 with
    | .unused n => some (p.1 / sizeofWord, n)
    | .named _ => none)

/-- The register addresses of the RISC-V Debug Module, as the register map is documented:
the address each named slot is meant to mirror. -/
def dmiAddress : DMReg → Nat
  | .DM_ABSTRACT_DATA_0 => 0x04
  | .DM_ABSTRACT_DATA_1 => 0x05
  | .DM_ABSTRACT_DATA_2 => 0x06
  | .DM_ABSTRACT_DATA_3 => 0x07
  | .DM_ABSTRACT_DATA_4 => 0x08
  | .DM_ABSTRACT_DATA_5 => 0x09
  | .DM_ABSTRACT_DATA_6 => 0x0a
  | .DM_ABSTRACT_DATA_7 => 0x0b
  | .DM_ABSTRACT_DATA_8 => 0x0c
  | .DM_ABSTRACT_DATA_9 => 0x0d
  | .DM_ABSTRACT_DATA_10 => 0x0e
  | .DM_ABSTRACT_DATA_11 => 0x0f
  | .DM_DEBUG_MODULE_CONTROL => 0x10
  | .DM_DEBUG_MODULE_STATUS => 0x11
  | .DM_HART_INFO => 0x12
  | .DM_HART_SUMMARY_1 => 0x13
  | .DM_HART_ARRAY_WINDOW_SELECT => 0x14
  | .DM_HART_ARRAY_WINDOW => 0x15
  | .DM_ABSTRACT_CONTROL_AND_STATUS => 0x16
  | .DM_ABSTRACT_COMMAND => 0x17
  | .DM_ABSTRACT_COMMAND_AUTOEXEC => 0x18
  | .DM_CONFIGURATION_STRING_POINTER_0 => 0x19
  | .DM_CONFIGURATION_STRING_POINTER_1 => 0x1a
  | .DM_CONFIGURATION_STRING_POINTER_2 => 0x1b
  | .DM_CONFIGURATION_STRING_POINTER_3 => 0x1c
  | .DM_NEXT_DEBUG_MODULE => 0x1d
  | .DM_PROGRAM_BUFFER_0 => 0x20
  | .DM_PROGRAM_BUFFER_1 => 0x21
  | .DM_PROGRAM_BUFFER_2 => 0x22
  | .DM_PROGRAM_BUFFER_3 => 0x23
  | .DM_PROGRAM_BUFFER_4 => 0x24
  | .DM_PROGRAM_BUFFER_5 => 0x25
  | .DM_PROGRAM_BUFFER_6 => 0x26
  | .DM_PROGRAM_BUFFER_7 => 0x27
  | .DM_PROGRAM_BUFFER_8 => 0x28
  | .DM_PROGRAM_BUFFER_9 => 0x29
  | .DM_PROGRAM_BUFFER_10 => 0x2a
  | .DM_PROGRAM_BUFFER_11 => 0x2b
  | .DM_PROGRAM_BUFFER_12 => 0x2c
  | .DM_PROGRAM_BUFFER_13 => 0x2d
  | .DM_PROGRAM_BUFFER_14 => 0x2e
  | .DM_PROGRAM_BUFFER_15 => 0x2f
  | .DM_AUTHENTICATION_DATA => 0x30
  | .DM_HALT_SUMMARY_2 => 0x34
  | .DM_HALT_SUMMARY_3 => 0x35
  | .DM_SYSTEM_BUS_ADDRESS_3 => 0x37
  | .DM_SYSTEM_BUS_ACCESS_CONTROL_AND_STATUS => 0x38
  | .DM_SYSTEM_BUS_ADDRESS_0 => 0x39
  | .DM_SYSTEM_BUS_ADDRESS_1 => 0x3a
  | .DM_SYSTEM_BUS_ADDRESS_2 => 0x3b
  | .DM_SYSTEM_BUS_DATA_0 => 0x3c
  | .DM_SYSTEM_BUS_DATA_1 => 0x3d
  | .DM_SYSTEM_BUS_DATA_2 => 0x3e
  | .DM_SYSTEM_BUS_DATA_3 => 0x3f
  | .DM_HALT_SUMMARY_0 => 0x40

/-- Every named member, in declaration order. -/
def namedMembers (ms : List Member) : List DMReg :=
  ms.filterMap (fun m => match m with
    | .named r => some r
    | .unused _ => none)

/-! ## Messages (`Request`, `Response`) and the response builders of `DM_Interface` -/

/-- The request categories, as `DM_Interface::req_to_string` enumerates them
(`Request_RequestType_dtm`, `Request_RequestType_dm`, ...). -/
inductive Request_RequestType where
  | dtm
  | dm
  | register
  | memory
  | systemBus
  | control
  deriving DecidableEq, Repr

/-- A request, with the members the header reads: `type`, `isRead`, `addr`, `data`. -/
structure Request where
  type : Request_RequestType
  isRead : Bool
  addr : Nat
  data : Nat
  deriving DecidableEq, Repr

/-- A response, with the members the header's designated initialisers name, in their order:
`isRead`, `data`, `success`. -/
structure Response where
  isRead : Bool
  data : Nat
  success : Bool
  deriving DecidableEq, Repr

/-- `DM_Interface::invalid`: `Response{.isRead = req.isRead, .success = 0}`; the member `data`
has no initialiser in the aggregate and is therefore zero. -/
def invalid (req : Request) : Response :=
  { isRead := req.isRead, data := 0, success := false }

/-- `DM_Interface::valid`: `Response{.isRead = req.isRead, .data = data, .success = 1}`, the
parameter `data` defaulting to `0`. -/
def valid (req : Request) (data : Nat := 0) : Response :=
  { isRead := req.isRead, data := data, success := true }

/-! ## Protocol dispatcher -/

/-- The pure virtual members of `DM_Interface`, over an explicit store state `σ`:
`uint32_t read_dm(uint32_t addr)` and `void write_dm(uint32_t addr, uint32_t data)`. -/
structure DM_Interface (σ : Type) where
  read_dm : σ → Nat → Nat
  write_dm : σ → Nat → Nat → σ

/-- Modelled from the spec: the body of `DM_Interface::process_dtm`, which the header only
declares. "`transport`: reserved for the not-yet-populated transport register space; currently
has no addressable targets, so any such request is answered as unsuccessful." The store is
returned unchanged. -/
def process_dtm {σ : Type} (req : Request) (s : σ) : Response × σ :=
  (invalid req, s)

/-- Modelled from the spec: the body of `DM_Interface::process_dm`, which the header only
declares. "`debugModule`: the address is interpreted as an offset into the Register Map; on
read, fetch the backing store's current value for that offset via the read primitive and report
success if the offset is a defined slot; on write, forward the value through the write primitive
at that offset, success iff the offset is a defined slot." An unsuccessful response is the one
`invalid` builds (`success = false`, `data = 0`). -/
def process_dm {σ : Type} (B : DM_Interface σ) (req : Request) (s : σ) : Response × σ :=
  if req.isRead then
    let v := B.read_dm s req.addr
    if isDefinedSlot DM_RegisterFile req.addr then (valid req v, s) else (invalid req, s)
  else
    let s1 := B.write_dm s req.addr req.data
    if isDefinedSlot DM_RegisterFile req.addr then (valid req, s1) else (invalid req, s1)

/-- Modelled from the spec: the dispatch on `Request.type` (`process_request`, commented out in
the header). The `register`, `memory`, `systemBus` and `control` branches go through primitives
the header does not declare; they are the parameter `rest`. -/
def process_request {σ : Type} (B : DM_Interface σ) (rest : Request → σ → Response × σ)
    (req : Request) (s : σ) : Response × σ :=
  match req.type with
  | .dtm => process_dtm req s
  | .dm => process_dm B req s
  | _ => rest req s

/-- A store that keeps one 32-bit word per address: `write_dm` records the value, `read_dm`
returns the recorded one. -/
def wordStore : DM_Interface (Nat → Nat) where
  read_dm := fun s a => s a
  write_dm := fun s a v => fun b => if b = a then v else s b

/-! ## Duplex queue (`class RequestResponseFIFO`) -/

/-- The two `std::queue` members of `RequestResponseFIFO`, front of the queue first. The
mutexes and condition variables carry no data. -/
structure RequestResponseFIFO where
  request_queue : List Request
  response_queue : List Response
  deriving DecidableEq, Repr

namespace RequestResponseFIFO

/-- A freshly constructed queue pair: both `std::queue`s are empty. -/
def empty : RequestResponseFIFO := { request_queue := [], response_queue := [] }

/-- Modelled from the spec: the body of `push_request`, which the header only declares.
"Blocking enqueue onto the request channel; always succeeds (unbounded capacity)." -/
def push_request (f : RequestResponseFIFO) (req : Request) : RequestResponseFIFO :=
  { f with request_queue := f.request_queue ++ [req] }

/-- Modelled from the spec: the body of `pop_request`, which the header only declares.
"Non-blocking dequeue from the request channel", returning empty if none is pending. -/
def pop_request (f : RequestResponseFIFO) : Option Request × RequestResponseFIFO :=
  match f.request_queue with
  | [] => (none, f)
  | r :: rs => (some r, { f with request_queue := rs })

/-- Modelled from the spec: the body of `push_response`, which the header only declares.
"Blocking enqueue onto the response channel; always succeeds." -/
def push_response (f : RequestResponseFIFO) (resp : Response) : RequestResponseFIFO :=
  { f with response_queue := f.response_queue ++ [resp] }

/-- Modelled from the spec: the body of `pop_response`, which the header only declares.
"Non-blocking dequeue from the response channel; returns empty if none pending." -/
def pop_response (f : RequestResponseFIFO) : Option Response × RequestResponseFIFO :=
  match f.response_queue with
  | [] => (none, f)
  | r :: rs => (some r, { f with response_queue := rs })

/-- The results of `n` successive `pop_request` calls, and the queue pair left behind. -/
def pop_requests : Nat → RequestResponseFIFO → List (Option Request) × RequestResponseFIFO
  | 0, f => ([], f)
  | n + 1, f =>
    let r := pop_request f
    let rest := pop_requests n r.2
    (r.1 :: rest.1, rest.2)

/-- The results of `n` successive `pop_response` calls, and the queue pair left behind. -/
def pop_responses : Nat → RequestResponseFIFO → List (Option Response) × RequestResponseFIFO
  | 0, f => ([], f)
  | n + 1, f =>
    let r := pop_response f
    let rest := pop_responses n r.2
    (r.1 :: rest.1, rest.2)

end RequestResponseFIFO

end dm

namespace sim

/-! ## Clock driver (`sim_scr1_top_tb_axi_dmi.cpp`) -/

/-- `#define PHASE_LENGTH 5`, the value used when the build does not override it. -/
def PHASE_LENGTH : Int := 5

/-- What the driver does, in the order it does it: the record the statements below append to.
`clk b` is the assignment `ptop->clk = b`, `eval` a call of `ptop->eval()`, `dump t` a call of
`tfp->dump(t)`, `dmiTick` a call of `dmiHandler->tick(ptop, runSim)`; the other three are calls
of the driver's own hooks. -/
inductive Event where
  | clk (b : Bool)
  | onRisingEdge
  | onFallingEdge
  | dmiTick
  | eval
  | dump (t : Nat)
  | sanityChecks
  deriving DecidableEq, Repr

/-- The collaborators the driver calls but does not define: the Verilated model `M`
(`ptop->eval()`, `Verilated::gotFinish()`, the `clk` pin) and the DMI handler `H`
(`DMI_Handler::tick`, which receives the model and `runSim`). -/
structure Testbench (M H : Type) where
  eval : M → M
  gotFinish : M → Bool
  setClk : Bool → M → M
  dmiTick : H → M → Bool → H × M × Bool

/-- The file-scope variables of the driver: `ptop`, `tfp` (true when non-null), `dmiHandler`,
`main_time`, `runSim`, and the record of what was done. `runSim` changes here only through the
handler's tick; the delivery of `SIGINT` between two statements is outside this sequential
model. -/
structure Sim (M H : Type) where
  ptop : M
  tfp : Bool
  dmiHandler : Option H
  main_time : Nat
  runSim : Bool
  log : List Event

/-- The value an `int` holds after an operation whose mathematical result is `x`: 32 bits,
two's complement. Decrementing `INT_MIN` is taken to wrap to `INT_MAX`, the behaviour of the
hardware decrement; the C++ standard leaves that case undefined. -/
def wrapInt32 (x : Int) : Int := (x + 2 ^ 31) % 2 ^ 32 - 2 ^ 31

variable {M H : Type}

/-- Body of the `do ... while` of `tick`: evaluate the model, `main_time++`, and dump a sample
stamped with the new time when `tfp && dump`. -/
def tickBody (W : Testbench M H) (dump : Bool) (s : Sim M H) : Sim M H :=
  let s1 := { s with ptop := W.eval s.ptop, log := s.log ++ [Event.eval] }
  let s2 := { s1 with main_time := (s1.main_time + 1) % 2 ^ 64 }
  if s2.tfp && dump then { s2 with log := s2.log ++ [Event.dump s2.main_time] } else s2

/-- The loop `do { body } while (--count);` of `tick`, with an iteration budget: `none` when
the budget is used up before the loop ends. -/
def tickLoop (W : Testbench M H) : Nat → Int → Bool → Sim M H → Option (Sim M H)
  | 0, _, _, _ => none
  | fuel + 1, count, dump, s =>
    let s1 := tickBody W dump s
    let count1 := wrapInt32 (count - 1)
    if count1 ≠ 0 then tickLoop W fuel count1 dump s1 else some s1

/-- `static void tick(int count, bool dump)`. A 32-bit counter returns to zero within `2 ^ 32`
decrements, which bounds the number of iterations. -/
def tick (W : Testbench M H) (count : Int) (dump : Bool) (s : Sim M H) : Option (Sim M H) :=
  tickLoop W (2 ^ 32) count dump s

/-- `static bool stopCondition()`: `!runSim || Verilated::gotFinish()`. -/
def stopCondition (W : Testbench M H) (s : Sim M H) : Bool :=
  !s.runSim || W.gotFinish s.ptop

/-- `static void sanityChecks()`: empty body. -/
def sanityChecks (s : Sim M H) : Sim M H :=
  { s with log := s.log ++ [Event.sanityChecks] }

/-- `static void onRisingEdge()`: empty body. -/
def onRisingEdge (s : Sim M H) : Sim M H :=
  { s with log := s.log ++ [Event.onRisingEdge] }

/-- `static void onFallingEdge()`: `if (dmiHandler) dmiHandler->tick(ptop, runSim);`. -/
def onFallingEdge (W : Testbench M H) (s : Sim M H) : Sim M H :=
  let s1 := { s with log := s.log ++ [Event.onFallingEdge] }
  match s1.dmiHandler with
  | some h =>
    let r := W.dmiTick h s1.ptop s1.runSim
    { s1 with dmiHandler := some r.1, ptop := r.2.1, runSim := r.2.2,
              log := s1.log ++ [Event.dmiTick] }
  | none => s1

/-- The assignment `ptop->clk = b`. -/
def setClk (W : Testbench M H) (b : Bool) (s : Sim M H) : Sim M H :=
  { s with ptop := W.setClk b s.ptop, log := s.log ++ [Event.clk b] }

/-- Body of the `do ... while` of `run`; returns the state after the cycle and the value of
`stop` sampled at its start. -/
def runBody (W : Testbench M H) (dump checkStopCondition : Bool) (s : Sim M H) :
    Option (Sim M H × Bool) :=
  let stop := checkStopCondition && stopCondition W s
  let s := setClk W true s
  let s := onRisingEdge s
  match tick W PHASE_LENGTH dump s with
  | none => none
  | some s =>
    let s := setClk W false s
    let s := onFallingEdge W s
    match tick W PHASE_LENGTH dump s with
    | none => none
    | some s =>
      let s := sanityChecks s
      some (s, stop)

/-- The loop `do { body } while (--limit && !stop);` of `run`, with an iteration budget;
`limit` is a `uint64_t`, so `--limit` is taken modulo `2 ^ 64`. -/
def runLoop (W : Testbench M H) : Nat → Nat → Bool → Bool → Sim M H → Option (Sim M H)
  | 0, _, _, _, _ => none
  | fuel + 1, limit, dump, checkStopCondition, s =>
    match runBody W dump checkStopCondition s with
    | none => none
    | some (s1, stop) =>
      let limit1 := (limit + 2 ^ 64 - 1) % 2 ^ 64
      if limit1 ≠ 0 ∧ stop = false then runLoop W fuel limit1 dump checkStopCondition s1
      else some s1

/-- `static void run(uint64_t limit, bool dump, bool checkStopCondition = true)`. A 64-bit
counter returns to zero within `2 ^ 64` decrements, which bounds the number of iterations. -/
def run (W : Testbench M H) (limit : Nat) (dump : Bool) (checkStopCondition : Bool := true)
    (s : Sim M H) : Option (Sim M H) :=
  runLoop W (2 ^ 64) limit dump checkStopCondition s

/-! ### Closed forms used to state what the loops compute -/

/-- The record `n` iterations of the body of `tick` append when started at time `t`: one
`eval` per step, followed by a `dump` stamped with the incremented time when `dumping`. -/
def tickLog (dumping : Bool) (t : Nat) : Nat → List Event
  | 0 => []
  | n + 1 =>
    (Event.eval :: if dumping then [Event.dump ((t + 1) % 2 ^ 64)] else [])
      ++ tickLog dumping ((t + 1) % 2 ^ 64) n

/-- One full clock cycle: the statements of the body of `run`, with each `tick(PHASE_LENGTH)`
replaced by `PHASE_LENGTH` applications of `tickBody`. -/
def cycle (W : Testbench M H) (dump : Bool) (s : Sim M H) : Sim M H :=
  sanityChecks
    ((tickBody W dump)^[PHASE_LENGTH.toNat]
      (onFallingEdge W (setClk W false
        ((tickBody W dump)^[PHASE_LENGTH.toNat] (onRisingEdge (setClk W true s))))))

/-- Number of iterations after which the counter of `run` reaches zero: `limit`, or `2 ^ 64`
when `limit = 0`. -/
def cycleBound (limit : Nat) : Nat := if limit = 0 then 2 ^ 64 else limit

/-- The value of `stop` sampled at the start of cycle `j` (counted from 1) of a run started in
`s`. -/
def stopAt (W : Testbench M H) (dump checkStopCondition : Bool) (s : Sim M H) (j : Nat) : Bool :=
  checkStopCondition && stopCondition W ((cycle W dump)^[j - 1] s)

/-- Number of iterations of `tick(count, ...)` for a 32-bit `count`: `count` when positive,
and `count + 2 ^ 32` otherwise. -/
def tickSteps (count : Int) : Nat := if 0 < count then count.toNat else (count + 2 ^ 32).toNat

/-- Number of clock cycles a record shows: the calls of `onRisingEdge`. -/
def cyclesIn (log : List Event) : Nat := log.count Event.onRisingEdge

/-- Number of handler ticks a record shows. -/
def dmiTicksIn (log : List Event) : Nat := log.count Event.dmiTick

/-- Number of model evaluations a record shows. -/
def evalsIn (log : List Event) : Nat := log.count Event.eval

/-- The time stamps of the trace samples a record shows, in order. -/
def samplesIn (log : List Event) : List Nat :=
  log.filterMap (fun e => match e with
    | .dump t => some t
    | _ => none)

/-- A model that never finishes and has no pins worth tracking, with a handler that does
nothing. -/
def idleBench : Testbench Unit Unit where
  eval := fun m => m
  gotFinish := fun _ => false
  setClk := fun _ m => m
  dmiTick := fun h m r => (h, m, r)

/-- The driver's variables at program start, before any handler is installed and without a
trace file. -/
def initial : Sim Unit Unit :=
  { ptop := (), tfp := false, dmiHandler := none, main_time := 0, runSim := true, log := [] }

end sim

/-! # Theorems -/

namespace dm

/-! ## Register map -/

theorem wordView_DM_length : (wordView DM_RegisterFile).length = 65 := by decide

/-- A word index at or beyond the end of the struct holds nothing. -/
theorem wordView_DM_beyond (k : Nat) (h : 65 ≤ k) : (wordView DM_RegisterFile)[k]? = none := by
  apply List.getElem?_eq_none
  rw [wordView_DM_length]
  exact h

/-- Past the last word of the struct there is no byte offset. -/
theorem byteOffsetOfWord_beyond (ms : List Member) (off k : Nat)
    (h : (ms.map Member.words).sum ≤ k) : byteOffsetOfWord ms off k = none := by
  induction ms generalizing off k with
  | nil => rfl
  | cons m ms ih =>
    simp only [List.map_cons, List.sum_cons] at h
    have h1 : ¬ k < m.words := by omega
    simp only [byteOffsetOfWord, h1, if_false]
    apply ih
    omega

theorem isReservedWord_DM_small : ∀ k : Fin 65, isReservedWord DM_RegisterFile k.val = true ↔
    (k.val ≤ 3 ∨ (0x1e ≤ k.val ∧ k.val ≤ 0x1f) ∨ (0x31 ≤ k.val ∧ k.val ≤ 0x33) ∨ k.val = 0x36) := by
  decide

theorem isDefinedSlot_DM_small : ∀ k : Fin 65, isDefinedSlot DM_RegisterFile k.val = true ↔
    (k.val ≤ 0x40 ∧
      ¬ (k.val ≤ 3 ∨ (0x1e ≤ k.val ∧ k.val ≤ 0x1f) ∨ (0x31 ≤ k.val ∧ k.val ≤ 0x33) ∨ k.val = 0x36)) := by
  decide

/-- C1. Read as an array of 32-bit words, `DM_RegisterFile` holds every named member at the word
index equal to its Debug Module register address (`DM_ABSTRACT_DATA_i` at `0x04 + i`, ...,
`DM_HALT_SUMMARY_0` at `0x40`, as tabulated in `dmiAddress`), the word at that index is that
member, and no two named members share an index. -/
theorem DM_RegisterFile_word_index_eq_dmi_address :
    (∀ r : DMReg, wordIndexOf DM_RegisterFile r = some (dmiAddress r)) ∧
    (∀ r : DMReg, (wordView DM_RegisterFile)[dmiAddress r]? = some (some r)) ∧
    Function.Injective (wordIndexOf DM_RegisterFile) ∧
    Function.Injective dmiAddress := by
  have h1 : ∀ r : DMReg, wordIndexOf DM_RegisterFile r = some (dmiAddress r) := by
    intro r; cases r <;> rfl
  have h2 : Function.Injective dmiAddress := by
    intro a b; cases a <;> cases b <;> simp [dmiAddress]
  refine ⟨h1, ?_, ?_, h2⟩
  · intro r; cases r <;> rfl
  · intro a b hab
    rw [h1, h1] at hab
    exact h2 (Option.some.inj hab)

/-- C2. `DM_RegisterFile` is a packed table of exactly 65 words, 260 bytes; word `k` lies at
byte offset `4 * k`; the reserved arrays cover exactly the word indices `0..3`, `0x1e..0x1f`,
`0x31..0x33` and `0x36` (sizes 4, 2, 3, 1); a word index is a defined slot exactly when it is at
most `0x40` and in none of these gaps; there are 55 defined slots. -/
theorem DM_RegisterFile_layout :
    (wordView DM_RegisterFile).length = 65 ∧
    packedSize DM_RegisterFile = 260 ∧
    (∀ k : Fin 65, byteOffsetOfWord DM_RegisterFile 0 k.val = some (4 * k.val)) ∧
    (∀ k : Nat, 65 ≤ k → byteOffsetOfWord DM_RegisterFile 0 k = none) ∧
    reservedGaps DM_RegisterFile = [(0, 4), (0x1e, 2), (0x31, 3), (0x36, 1)] ∧
    (∀ k : Nat, isReservedWord DM_RegisterFile k = true ↔
      (k ≤ 3 ∨ (0x1e ≤ k ∧ k ≤ 0x1f) ∨ (0x31 ≤ k ∧ k ≤ 0x33) ∨ k = 0x36)) ∧
    (∀ k : Nat, isDefinedSlot DM_RegisterFile k = true ↔
      (k ≤ 0x40 ∧ ¬ (k ≤ 3 ∨ (0x1e ≤ k ∧ k ≤ 0x1f) ∨ (0x31 ≤ k ∧ k ≤ 0x33) ∨ k = 0x36))) ∧
    ((List.range 65).filter (isDefinedSlot DM_RegisterFile)).length = 55 ∧
    (namedMembers DM_RegisterFile).length = 55 := by
  refine ⟨by decide, by decide, by decide, ?_, by decide, ?_, ?_, by decide, by decide⟩
  · intro k hk
    apply byteOffsetOfWord_beyond
    have : ((DM_RegisterFile.map Member.words).sum) = 65 := by decide
    omega
  · intro k
    rcases Nat.lt_or_ge k 65 with h | h
    · exact isReservedWord_DM_small ⟨k, h⟩
    · have hn := wordView_DM_beyond k h
      simp only [isReservedWord, hn]
      constructor
      · intro hf; cases hf
      · intro hk; omega
  · intro k
    rcases Nat.lt_or_ge k 65 with h | h
    · exact isDefinedSlot_DM_small ⟨k, h⟩
    · have hn := wordView_DM_beyond k h
      simp only [isDefinedSlot, hn]
      constructor
      · intro hf; cases hf
      · intro hk; omega

/-! ## Response builders -/

/-- C3. For every request, `invalid` builds a response with `success = false`, `data = 0` and
`isRead` equal to the request's; the response is the same whatever the request's type, address
and data are. -/
theorem invalid_builds_failure (req : Request) :
    (invalid req).success = false ∧ (invalid req).data = 0 ∧
    (invalid req).isRead = req.isRead ∧
    (∀ (t : Request_RequestType) (a d : Nat),
      invalid { type := t, isRead := req.isRead, addr := a, data := d } = invalid req) :=
  ⟨rfl, rfl, rfl, fun _ _ _ => rfl⟩

/-- C4. For every request and value `d`, `valid req d` has `success = true`, `data = d` and
`isRead` equal to the request's; with the data argument omitted the response carries
`data = 0`; and a response built by `valid` never equals one built by `invalid`. -/
theorem valid_builds_success (req req' : Request) (d : Nat) :
    (valid req d).success = true ∧ (valid req d).data = d ∧
    (valid req d).isRead = req.isRead ∧
    valid req = { isRead := req.isRead, data := 0, success := true } ∧
    valid req d ≠ invalid req ∧ valid req d ≠ invalid req' := by
  refine ⟨rfl, rfl, rfl, rfl, ?_, ?_⟩ <;>
  · intro h
    have := congrArg Response.success h
    simp [valid, invalid] at this

/-! ## Dispatcher -/

/-- C5. Write-then-read round trip: for a defined Register Map slot `a` and a value `v`,
dispatching the `debugModule` write of `v` to `a` and then the `debugModule` read of `a`,
against a store whose `read_dm` returns the value just passed to `write_dm` at that address,
yields the second response `(isRead = true, data = v, success = true)`; the write itself is
answered as successful. -/
theorem dm_write_then_read {σ : Type} (B : DM_Interface σ)
    (rest : Request → σ → Response × σ) (s : σ) (a v d : Nat)
    (hB : B.read_dm (B.write_dm s a v) a = v)
    (ha : isDefinedSlot DM_RegisterFile a = true) :
    (process_request B rest { type := .dm, isRead := false, addr := a, data := v } s).1
      = { isRead := false, data := 0, success := true } ∧
    (process_request B rest { type := .dm, isRead := true, addr := a, data := d }
      (process_request B rest { type := .dm, isRead := false, addr := a, data := v } s).2).1
      = { isRead := true, data := v, success := true } := by
  simp [process_request, process_dm, ha, hB, valid]

theorem dm_write_then_read_witness :
    wordIndexOf DM_RegisterFile .DM_ABSTRACT_DATA_0 = some 4 ∧
    wordStore.read_dm (wordStore.write_dm (fun _ => 0) 4 0xDEADBEEF) 4 = 0xDEADBEEF ∧
    isDefinedSlot DM_RegisterFile 4 = true ∧
    (process_request wordStore (fun r s => (invalid r, s))
      { type := .dm, isRead := true, addr := 4, data := 0 }
      (process_request wordStore (fun r s => (invalid r, s))
        { type := .dm, isRead := false, addr := 4, data := 0xDEADBEEF } (fun _ => 0)).2).1
      = { isRead := true, data := 0xDEADBEEF, success := true } :=
  ⟨by decide, by simp [wordStore], by decide,
    (dm_write_then_read wordStore (fun r s => (invalid r, s)) (fun _ => 0) 4 0xDEADBEEF 0
      (by simp [wordStore]) (by decide)).2⟩

/-- C6. Every `transport` request, whatever its address, data and direction, is answered as
unsuccessful (`success = false`, `data = 0`, `isRead` mirrored), with the backing store left as
it was and whatever its primitives are; `DTM_RegisterFile` has no word, so no index is a defined
slot of it. -/
theorem transport_request_unsuccessful {σ : Type} (B : DM_Interface σ)
    (rest : Request → σ → Response × σ) (s : σ) (isRead : Bool) (addr data : Nat) :
    process_request B rest { type := .dtm, isRead := isRead, addr := addr, data := data } s
      = ({ isRead := isRead, data := 0, success := false }, s) ∧
    process_request B rest { type := .dtm, isRead := isRead, addr := addr, data := data } s
      = (invalid { type := .dtm, isRead := isRead, addr := addr, data := data }, s) ∧
    (∀ (B1 : DM_Interface σ) (rest1 : Request → σ → Response × σ),
      process_request B1 rest1 { type := .dtm, isRead := isRead, addr := addr, data := data } s
        = process_request B rest { type := .dtm, isRead := isRead, addr := addr, data := data } s) ∧
    wordView DTM_RegisterFile = [] ∧ packedSize DTM_RegisterFile = 0 ∧
    (∀ k : Nat, isDefinedSlot DTM_RegisterFile k = false) ∧
    (∀ r : DMReg, wordIndexOf DTM_RegisterFile r = none) :=
  ⟨rfl, rfl, fun _ _ => rfl, rfl, rfl, fun _ => rfl, fun _ => rfl⟩

/-! ## Duplex queue -/

namespace RequestResponseFIFO

theorem pop_requests_eq (n : Nat) (f : RequestResponseFIFO) :
    pop_requests n f =
      ((f.request_queue.take n).map some ++ List.replicate (n - f.request_queue.length) none,
        { f with request_queue := f.request_queue.drop n }) := by
  induction n generalizing f with
  | zero => simp [pop_requests]
  | succ n ih =>
    obtain ⟨q, p⟩ := f
    cases q with
    | nil => simp [pop_requests, pop_request, ih, List.replicate_succ]
    | cons r rs => simp [pop_requests, pop_request, ih]

theorem pop_responses_eq (n : Nat) (f : RequestResponseFIFO) :
    pop_responses n f =
      ((f.response_queue.take n).map some ++ List.replicate (n - f.response_queue.length) none,
        { f with response_queue := f.response_queue.drop n }) := by
  induction n generalizing f with
  | zero => simp [pop_responses]
  | succ n ih =>
    obtain ⟨q, p⟩ := f
    cases p with
    | nil => simp [pop_responses, pop_response, ih, List.replicate_succ]
    | cons r rs => simp [pop_responses, pop_response, ih]

theorem foldl_push_request (rs : List Request) (f : RequestResponseFIFO) :
    rs.foldl push_request f = { f with request_queue := f.request_queue ++ rs } := by
  induction rs generalizing f with
  | nil => simp
  | cons r rs ih => simp [ih, push_request]

theorem foldl_push_response (rs : List Response) (f : RequestResponseFIFO) :
    rs.foldl push_response f = { f with response_queue := f.response_queue ++ rs } := by
  induction rs generalizing f with
  | nil => simp
  | cons r rs ih => simp [ih, push_response]

/-- C7. Each channel is an unbounded FIFO independent of the other. After pushing `rs` with
`push_request`, successive `pop_request` calls return what the channel already held, then `rs`
in push order, then empty for every further call (on a channel that started empty: `rs` in
order, then empty); `pop_request` on an empty channel returns empty and changes nothing; the
same holds for `push_response` / `pop_response`; and a push or pop on one channel leaves the
other channel's contents unchanged. -/
theorem fifo_order_and_independence (f : RequestResponseFIFO) (rs : List Request)
    (ps : List Response) (k : Nat) (r : Request) (p : Response) :
    pop_requests (f.request_queue.length + rs.length + k) (rs.foldl push_request f)
      = ((f.request_queue ++ rs).map some ++ List.replicate k none,
         { request_queue := [], response_queue := f.response_queue }) ∧
    pop_responses (f.response_queue.length + ps.length + k) (ps.foldl push_response f)
      = ((f.response_queue ++ ps).map some ++ List.replicate k none,
         { request_queue := f.request_queue, response_queue := [] }) ∧
    (pop_requests (rs.length + k) (rs.foldl push_request empty)).1
      = rs.map some ++ List.replicate k none ∧
    (pop_responses (ps.length + k) (ps.foldl push_response empty)).1
      = ps.map some ++ List.replicate k none ∧
    pop_request { request_queue := [], response_queue := f.response_queue }
      = (none, { request_queue := [], response_queue := f.response_queue }) ∧
    pop_response { request_queue := f.request_queue, response_queue := [] }
      = (none, { request_queue := f.request_queue, response_queue := [] }) ∧
    (push_request f r).response_queue = f.response_queue ∧
    (pop_request f).2.response_queue = f.response_queue ∧
    (push_response f p).request_queue = f.request_queue ∧
    (pop_response f).2.request_queue = f.request_queue := by
  refine ⟨?_, ?_, ?_, ?_, rfl, rfl, rfl, ?_, rfl, ?_⟩
  · rw [foldl_push_request, pop_requests_eq]
    have h1 : (f.request_queue ++ rs).take (f.request_queue.length + rs.length + k)
        = f.request_queue ++ rs := by
      apply List.take_of_length_le; simp
    have h2 : (f.request_queue ++ rs).drop (f.request_queue.length + rs.length + k) = [] := by
      apply List.drop_of_length_le; simp
    simp only [h1, h2, List.length_append]
    congr 3
    omega
  · rw [foldl_push_response, pop_responses_eq]
    have h1 : (f.response_queue ++ ps).take (f.response_queue.length + ps.length + k)
        = f.response_queue ++ ps := by
      apply List.take_of_length_le; simp
    have h2 : (f.response_queue ++ ps).drop (f.response_queue.length + ps.length + k) = [] := by
      apply List.drop_of_length_le; simp
    simp only [h1, h2, List.length_append]
    congr 3
    omega
  · rw [foldl_push_request, pop_requests_eq]
    simp [empty]
  · rw [foldl_push_response, pop_responses_eq]
    simp [empty]
  · obtain ⟨q, p⟩ := f
    cases q <;> rfl
  · obtain ⟨q, p⟩ := f
    cases p <;> rfl

end RequestResponseFIFO

end dm

namespace sim

variable {M H : Type}

/-! ## `tick` -/

theorem tickBody_main_time (W : Testbench M H) (dump : Bool) (s : Sim M H) :
    (tickBody W dump s).main_time = (s.main_time + 1) % 2 ^ 64 := by
  unfold tickBody
  dsimp only
  split <;> rfl

theorem tickBody_tfp (W : Testbench M H) (dump : Bool) (s : Sim M H) :
    (tickBody W dump s).tfp = s.tfp := by
  unfold tickBody
  dsimp only
  split <;> rfl

theorem tickBody_dmiHandler (W : Testbench M H) (dump : Bool) (s : Sim M H) :
    (tickBody W dump s).dmiHandler = s.dmiHandler := by
  unfold tickBody
  dsimp only
  split <;> rfl

theorem tickBody_runSim (W : Testbench M H) (dump : Bool) (s : Sim M H) :
    (tickBody W dump s).runSim = s.runSim := by
  unfold tickBody
  dsimp only
  split <;> rfl

theorem tickBody_ptop (W : Testbench M H) (dump : Bool) (s : Sim M H) :
    (tickBody W dump s).ptop = W.eval s.ptop := by
  unfold tickBody
  dsimp only
  split <;> rfl

theorem tickBody_log (W : Testbench M H) (dump : Bool) (s : Sim M H) :
    (tickBody W dump s).log = s.log ++ tickLog (s.tfp && dump) s.main_time 1 := by
  unfold tickBody tickLog tickLog
  dsimp only
  split <;> rename_i h <;> simp [h]

theorem iterate_tickBody_tfp (W : Testbench M H) (dump : Bool) (n : Nat) (s : Sim M H) :
    ((tickBody W dump)^[n] s).tfp = s.tfp := by
  induction n generalizing s with
  | zero => rfl
  | succ n ih => rw [Function.iterate_succ_apply, ih, tickBody_tfp]

theorem iterate_tickBody_dmiHandler (W : Testbench M H) (dump : Bool) (n : Nat) (s : Sim M H) :
    ((tickBody W dump)^[n] s).dmiHandler = s.dmiHandler := by
  induction n generalizing s with
  | zero => rfl
  | succ n ih => rw [Function.iterate_succ_apply, ih, tickBody_dmiHandler]

theorem iterate_tickBody_runSim (W : Testbench M H) (dump : Bool) (n : Nat) (s : Sim M H) :
    ((tickBody W dump)^[n] s).runSim = s.runSim := by
  induction n generalizing s with
  | zero => rfl
  | succ n ih => rw [Function.iterate_succ_apply, ih, tickBody_runSim]

theorem iterate_tickBody_ptop (W : Testbench M H) (dump : Bool) (n : Nat) (s : Sim M H) :
    ((tickBody W dump)^[n] s).ptop = W.eval^[n] s.ptop := by
  induction n generalizing s with
  | zero => rfl
  | succ n ih => rw [Function.iterate_succ_apply, ih, tickBody_ptop, Function.iterate_succ_apply]

theorem iterate_tickBody_main_time (W : Testbench M H) (dump : Bool) (n : Nat) (s : Sim M H) :
    ((tickBody W dump)^[n] s).main_time = if n = 0 then s.main_time
      else (s.main_time + n) % 2 ^ 64 := by
  induction n generalizing s with
  | zero => rfl
  | succ n ih =>
    rw [Function.iterate_succ_apply, ih, tickBody_main_time]
    by_cases hn : n = 0
    · subst hn; simp
    · simp only [hn, if_false, Nat.succ_ne_zero]
      omega

theorem tickLog_main_time_mod (d : Bool) (t n : Nat) :
    tickLog d (t % 2 ^ 64) n = tickLog d t n := by
  cases n with
  | zero => rfl
  | succ n =>
    have h : (t % 2 ^ 64 + 1) % 2 ^ 64 = (t + 1) % 2 ^ 64 := by omega
    simp only [tickLog, h]

theorem iterate_tickBody_log (W : Testbench M H) (dump : Bool) (n : Nat) (s : Sim M H) :
    ((tickBody W dump)^[n] s).log = s.log ++ tickLog (s.tfp && dump) s.main_time n := by
  induction n generalizing s with
  | zero => simp [tickLog]
  | succ n ih =>
    rw [Function.iterate_succ_apply, ih, tickBody_log, tickBody_tfp, tickBody_main_time]
    simp [tickLog]

theorem evalsIn_tickLog (d : Bool) (t n : Nat) : evalsIn (tickLog d t n) = n := by
  induction n generalizing t with
  | zero => rfl
  | succ n ih =>
    have := ih ((t + 1) % 2 ^ 64)
    unfold evalsIn at this ⊢
    cases d <;> simpa [tickLog, List.count_cons] using this

theorem dmiTicksIn_tickLog (d : Bool) (t n : Nat) : dmiTicksIn (tickLog d t n) = 0 := by
  induction n generalizing t with
  | zero => rfl
  | succ n ih =>
    have := ih ((t + 1) % 2 ^ 64)
    unfold dmiTicksIn at this ⊢
    cases d <;> simpa [tickLog, List.count_cons] using this

theorem cyclesIn_tickLog (d : Bool) (t n : Nat) : cyclesIn (tickLog d t n) = 0 := by
  induction n generalizing t with
  | zero => rfl
  | succ n ih =>
    have := ih ((t + 1) % 2 ^ 64)
    unfold cyclesIn at this ⊢
    cases d <;> simpa [tickLog, List.count_cons] using this

theorem samplesIn_tickLog (d : Bool) (t n : Nat) :
    samplesIn (tickLog d t n) =
      if d then (List.range n).map (fun i => (t + i + 1) % 2 ^ 64) else [] := by
  induction n generalizing t with
  | zero => cases d <;> rfl
  | succ n ih =>
    have := ih ((t + 1) % 2 ^ 64)
    unfold samplesIn at this ⊢
    cases d
    · simpa [tickLog] using this
    · simp only [tickLog, if_true] at this ⊢
      simp only [List.cons_append, List.nil_append, List.filterMap_cons, this,
        List.range_succ_eq_map, List.map_cons, List.map_map]
      congr 1
      apply List.map_congr_left
      intro i _
      simp only [Function.comp, Nat.succ_eq_add_one]
      omega

theorem wrapInt32_pred (c : Int) (h1 : -2 ^ 31 ≤ c) (h2 : c < 2 ^ 31) :
    wrapInt32 (c - 1) = if c = -2 ^ 31 then 2 ^ 31 - 1 else c - 1 := by
  unfold wrapInt32
  split <;> omega

/-- The loop of `tick` runs `tickSteps count` times, given that much budget. -/
theorem tickLoop_eq (W : Testbench M H) (dump : Bool) (n : Nat) :
    ∀ (fuel : Nat) (count : Int) (s : Sim M H), -2 ^ 31 ≤ count → count < 2 ^ 31 →
      tickSteps count = n + 1 → n + 1 ≤ fuel →
      tickLoop W fuel count dump s = some ((tickBody W dump)^[n + 1] s) := by
  induction n with
  | zero =>
    intro fuel count s h1 h2 hn hf
    obtain ⟨fuel, rfl⟩ : ∃ k, fuel = k + 1 := ⟨fuel - 1, by omega⟩
    have hc : count = 1 := by
      unfold tickSteps at hn
      split at hn <;> omega
    subst hc
    simp [tickLoop, wrapInt32]
  | succ n ih =>
    intro fuel count s h1 h2 hn hf
    obtain ⟨fuel, rfl⟩ : ∃ k, fuel = k + 1 := ⟨fuel - 1, by omega⟩
    have hw := wrapInt32_pred count h1 h2
    have hne : wrapInt32 (count - 1) ≠ 0 := by
      rw [hw]
      unfold tickSteps at hn
      split <;> split at hn <;> omega
    have hsteps : tickSteps (wrapInt32 (count - 1)) = n + 1 := by
      rw [hw]
      unfold tickSteps at hn ⊢
      split <;> split at hn <;> split <;> omega
    have hlo : -2 ^ 31 ≤ wrapInt32 (count - 1) := by rw [hw]; split <;> omega
    have hhi : wrapInt32 (count - 1) < 2 ^ 31 := by rw [hw]; split <;> omega
    rw [tickLoop]
    simp only [hne, ne_eq, not_false_eq_true, if_true]
    rw [ih fuel _ (tickBody W dump s) hlo hhi hsteps (by omega)]
    rw [Function.iterate_succ_apply (tickBody W dump) (n + 1) s]

theorem tickSteps_le (count : Int) (h1 : -2 ^ 31 ≤ count) (h2 : count < 2 ^ 31) :
    1 ≤ tickSteps count ∧ tickSteps count ≤ 2 ^ 32 := by
  unfold tickSteps
  split <;> omega

/-- `tick` returns, after `tickSteps count` iterations of its body. -/
theorem tick_eq (W : Testbench M H) (dump : Bool) (count : Int) (s : Sim M H)
    (h1 : -2 ^ 31 ≤ count) (h2 : count < 2 ^ 31) :
    tick W count dump s = some ((tickBody W dump)^[tickSteps count] s) := by
  have hb := tickSteps_le count h1 h2
  obtain ⟨n, hn⟩ : ∃ n, tickSteps count = n + 1 := ⟨tickSteps count - 1, by omega⟩
  unfold tick
  rw [hn]
  exact tickLoop_eq W dump n (2 ^ 32) count s h1 h2 hn (by omega)

/-! ## `run` -/

theorem tickSteps_PHASE_LENGTH : tickSteps PHASE_LENGTH = 5 := by decide

theorem PHASE_LENGTH_toNat : PHASE_LENGTH.toNat = 5 := by decide

/-- The body of `run` always completes: it is one `cycle`, and `stop` is the stop condition
sampled before the rising edge. -/
theorem runBody_eq (W : Testbench M H) (dump check : Bool) (s : Sim M H) :
    runBody W dump check s = some (cycle W dump s, check && stopCondition W s) := by
  have hlo : -2 ^ 31 ≤ PHASE_LENGTH := by decide
  have hhi : PHASE_LENGTH < 2 ^ 31 := by decide
  unfold runBody cycle
  simp only [tick_eq W dump PHASE_LENGTH _ hlo hhi, tickSteps_PHASE_LENGTH, PHASE_LENGTH_toNat]

theorem onFallingEdge_main_time (W : Testbench M H) (s : Sim M H) :
    (onFallingEdge W s).main_time = s.main_time := by
  unfold onFallingEdge
  dsimp only
  split <;> rfl

theorem onFallingEdge_tfp (W : Testbench M H) (s : Sim M H) :
    (onFallingEdge W s).tfp = s.tfp := by
  unfold onFallingEdge
  dsimp only
  split <;> rfl

theorem onFallingEdge_isSome (W : Testbench M H) (s : Sim M H) :
    (onFallingEdge W s).dmiHandler.isSome = s.dmiHandler.isSome := by
  unfold onFallingEdge
  dsimp only
  split <;> rename_i h <;> simp [h]

theorem onFallingEdge_log (W : Testbench M H) (s : Sim M H) :
    (onFallingEdge W s).log =
      s.log ++ Event.onFallingEdge :: (if s.dmiHandler.isSome then [Event.dmiTick] else []) := by
  unfold onFallingEdge
  dsimp only
  split <;> rename_i h <;> simp [h]

/-- Without a handler `onFallingEdge` changes nothing but the record of its own call. -/
theorem onFallingEdge_none (W : Testbench M H) (s : Sim M H) (h : s.dmiHandler = none) :
    onFallingEdge W s = { s with log := s.log ++ [Event.onFallingEdge] } := by
  unfold onFallingEdge
  dsimp only
  rw [h]

theorem cycle_main_time (W : Testbench M H) (dump : Bool) (s : Sim M H) :
    (cycle W dump s).main_time = (s.main_time + 10) % 2 ^ 64 := by
  unfold cycle
  rw [PHASE_LENGTH_toNat]
  show ((tickBody W dump)^[5] _).main_time = _
  rw [iterate_tickBody_main_time, onFallingEdge_main_time]
  show (if 5 = 0 then ((tickBody W dump)^[5] _).main_time
    else (((tickBody W dump)^[5] _).main_time + 5) % 2 ^ 64) = _
  rw [iterate_tickBody_main_time]
  show (if 5 = 0 then (if 5 = 0 then s.main_time else (s.main_time + 5) % 2 ^ 64)
    else ((if 5 = 0 then s.main_time else (s.main_time + 5) % 2 ^ 64) + 5) % 2 ^ 64) = _
  simp only [Nat.reduceEqDiff, if_false]
  omega

theorem cycle_tfp (W : Testbench M H) (dump : Bool) (s : Sim M H) :
    (cycle W dump s).tfp = s.tfp := by
  unfold cycle
  show ((tickBody W dump)^[_] _).tfp = _
  rw [iterate_tickBody_tfp, onFallingEdge_tfp]
  show ((tickBody W dump)^[_] _).tfp = _
  rw [iterate_tickBody_tfp]
  rfl

theorem cycle_dmiHandler_isSome (W : Testbench M H) (dump : Bool) (s : Sim M H) :
    (cycle W dump s).dmiHandler.isSome = s.dmiHandler.isSome := by
  unfold cycle
  show ((tickBody W dump)^[_] _).dmiHandler.isSome = _
  rw [iterate_tickBody_dmiHandler, onFallingEdge_isSome]
  show ((tickBody W dump)^[_] _).dmiHandler.isSome = _
  rw [iterate_tickBody_dmiHandler]
  rfl

/-- The record of one cycle: rising edge first, `PHASE_LENGTH` model steps, falling edge with
the handler tick (when a handler is installed), `PHASE_LENGTH` more steps, sanity checks. -/
theorem cycle_log (W : Testbench M H) (dump : Bool) (s : Sim M H) :
    (cycle W dump s).log = s.log ++ ([Event.clk true, Event.onRisingEdge]
      ++ tickLog (s.tfp && dump) s.main_time 5
      ++ [Event.clk false, Event.onFallingEdge]
      ++ (if s.dmiHandler.isSome then [Event.dmiTick] else [])
      ++ tickLog (s.tfp && dump) (s.main_time + 5) 5
      ++ [Event.sanityChecks]) := by
  unfold cycle
  rw [PHASE_LENGTH_toNat]
  show ((tickBody W dump)^[5] _).log ++ [Event.sanityChecks] = _
  rw [iterate_tickBody_log, onFallingEdge_log, onFallingEdge_tfp, onFallingEdge_main_time]
  show (((tickBody W dump)^[5] _).log ++ [Event.clk false]
      ++ Event.onFallingEdge ::
        (if ((tickBody W dump)^[5] _).dmiHandler.isSome then [Event.dmiTick] else [])
      ++ tickLog (((tickBody W dump)^[5] _).tfp && dump) ((tickBody W dump)^[5] _).main_time 5)
      ++ [Event.sanityChecks] = _
  rw [iterate_tickBody_log, iterate_tickBody_tfp, iterate_tickBody_main_time,
    iterate_tickBody_dmiHandler]
  show (s.log ++ [Event.clk true] ++ [Event.onRisingEdge]
      ++ tickLog (s.tfp && dump) s.main_time 5 ++ [Event.clk false]
      ++ Event.onFallingEdge :: (if s.dmiHandler.isSome then [Event.dmiTick] else [])
      ++ tickLog (s.tfp && dump) (if 5 = 0 then s.main_time else (s.main_time + 5) % 2 ^ 64) 5)
      ++ [Event.sanityChecks] = _
  simp only [Nat.reduceEqDiff, if_false, tickLog_main_time_mod, List.append_assoc,
    List.cons_append, List.nil_append, List.singleton_append]

theorem cyclesIn_cycle (W : Testbench M H) (dump : Bool) (s : Sim M H) :
    cyclesIn (cycle W dump s).log = cyclesIn s.log + 1 := by
  rw [cycle_log]
  have h1 := cyclesIn_tickLog (s.tfp && dump) s.main_time 5
  have h2 := cyclesIn_tickLog (s.tfp && dump) (s.main_time + 5) 5
  unfold cyclesIn at h1 h2 ⊢
  simp only [List.count_append, h1, h2]
  split <;> simp [List.count_cons]

theorem dmiTicksIn_cycle (W : Testbench M H) (dump : Bool) (s : Sim M H) :
    dmiTicksIn (cycle W dump s).log
      = dmiTicksIn s.log + (if s.dmiHandler.isSome then 1 else 0) := by
  rw [cycle_log]
  have h1 := dmiTicksIn_tickLog (s.tfp && dump) s.main_time 5
  have h2 := dmiTicksIn_tickLog (s.tfp && dump) (s.main_time + 5) 5
  unfold dmiTicksIn at h1 h2 ⊢
  simp only [List.count_append, h1, h2]
  split <;> simp [List.count_cons]

theorem evalsIn_cycle (W : Testbench M H) (dump : Bool) (s : Sim M H) :
    evalsIn (cycle W dump s).log = evalsIn s.log + 10 := by
  rw [cycle_log]
  have h1 := evalsIn_tickLog (s.tfp && dump) s.main_time 5
  have h2 := evalsIn_tickLog (s.tfp && dump) (s.main_time + 5) 5
  unfold evalsIn at h1 h2 ⊢
  simp only [List.count_append, h1, h2]
  split <;> simp [List.count_cons]

theorem iterate_cycle_isSome (W : Testbench M H) (dump : Bool) (j : Nat) (s : Sim M H) :
    ((cycle W dump)^[j] s).dmiHandler.isSome = s.dmiHandler.isSome := by
  induction j with
  | zero => rfl
  | succ j ih => rw [Function.iterate_succ_apply', cycle_dmiHandler_isSome, ih]

theorem iterate_cycle_main_time (W : Testbench M H) (dump : Bool) (j : Nat) (s : Sim M H) :
    ((cycle W dump)^[j] s).main_time
      = if j = 0 then s.main_time else (s.main_time + 10 * j) % 2 ^ 64 := by
  induction j with
  | zero => rfl
  | succ j ih =>
    rw [Function.iterate_succ_apply', cycle_main_time, ih]
    by_cases hj : j = 0
    · subst hj; simp
    · simp only [hj, if_false, Nat.succ_ne_zero]
      omega

theorem iterate_cycle_cyclesIn (W : Testbench M H) (dump : Bool) (j : Nat) (s : Sim M H) :
    cyclesIn ((cycle W dump)^[j] s).log = cyclesIn s.log + j := by
  induction j with
  | zero => rfl
  | succ j ih =>
    rw [Function.iterate_succ_apply', cyclesIn_cycle, ih]
    omega

theorem iterate_cycle_evalsIn (W : Testbench M H) (dump : Bool) (j : Nat) (s : Sim M H) :
    evalsIn ((cycle W dump)^[j] s).log = evalsIn s.log + 10 * j := by
  induction j with
  | zero => rfl
  | succ j ih =>
    rw [Function.iterate_succ_apply', evalsIn_cycle, ih]
    omega

theorem iterate_cycle_dmiTicksIn (W : Testbench M H) (dump : Bool) (j : Nat) (s : Sim M H) :
    dmiTicksIn ((cycle W dump)^[j] s).log
      = dmiTicksIn s.log + (if s.dmiHandler.isSome then j else 0) := by
  induction j with
  | zero => simp
  | succ j ih =>
    rw [Function.iterate_succ_apply', dmiTicksIn_cycle, ih, iterate_cycle_isSome]
    split <;> omega

theorem stopAt_cycle (W : Testbench M H) (dump check : Bool) (s : Sim M H) (i : Nat)
    (hi : 1 ≤ i) :
    stopAt W dump check (cycle W dump s) i = stopAt W dump check s (i + 1) := by
  obtain ⟨k, rfl⟩ : ∃ k, i = k + 1 := ⟨i - 1, by omega⟩
  unfold stopAt
  rw [Nat.add_sub_cancel, Nat.add_sub_cancel, Function.iterate_succ_apply]

theorem stopAt_one (W : Testbench M H) (dump check : Bool) (s : Sim M H) :
    stopAt W dump check s 1 = (check && stopCondition W s) := rfl

/-- The loop of `run` executes `j + 1` cycles when `j + 1` is the first cycle at which the
counter reaches zero or whose entry sample of the stop condition is true. -/
theorem runLoop_eq (W : Testbench M H) (dump check : Bool) (j : Nat) :
    ∀ (fuel limit : Nat) (s : Sim M H), limit < 2 ^ 64 → j + 1 ≤ cycleBound limit →
      j + 1 ≤ fuel →
      (∀ i, 1 ≤ i → i ≤ j → stopAt W dump check s i = false) →
      (j + 1 = cycleBound limit ∨ stopAt W dump check s (j + 1) = true) →
      runLoop W fuel limit dump check s = some ((cycle W dump)^[j + 1] s) := by
  induction j with
  | zero =>
    intro fuel limit s hl _ hf _ hend
    obtain ⟨fuel, rfl⟩ : ∃ k, fuel = k + 1 := ⟨fuel - 1, by omega⟩
    simp only [runLoop, runBody_eq]
    have hexit : ¬ ((limit + 2 ^ 64 - 1) % 2 ^ 64 ≠ 0 ∧ (check && stopCondition W s) = false) := by
      rintro ⟨h1, h2⟩
      rcases hend with h | h
      · unfold cycleBound at h
        split at h <;> omega
      · rw [stopAt_one, h2] at h
        cases h
    rw [if_neg hexit]
    rfl
  | succ j ih =>
    intro fuel limit s hl hN hf hno hend
    obtain ⟨fuel, rfl⟩ : ∃ k, fuel = k + 1 := ⟨fuel - 1, by omega⟩
    simp only [runLoop, runBody_eq]
    have hstop : (check && stopCondition W s) = false := by
      rw [← stopAt_one W dump]
      exact hno 1 (le_refl 1) (by omega)
    have hlim : (limit + 2 ^ 64 - 1) % 2 ^ 64 ≠ 0 := by
      unfold cycleBound at hN
      split at hN <;> omega
    have hlt : (limit + 2 ^ 64 - 1) % 2 ^ 64 < 2 ^ 64 := Nat.mod_lt _ (by norm_num)
    have hbound : cycleBound ((limit + 2 ^ 64 - 1) % 2 ^ 64) + 1 = cycleBound limit := by
      unfold cycleBound at hN ⊢
      rw [if_neg hlim]
      split <;> split at hN <;> omega
    rw [if_pos ⟨hlim, hstop⟩]
    rw [ih fuel _ (cycle W dump s) hlt (by omega) (by omega)]
    · rw [Function.iterate_succ_apply (cycle W dump) (j + 1) s]
    · intro i hi1 hij
      rw [stopAt_cycle W dump check s i hi1]
      exact hno (i + 1) (by omega) (by omega)
    · rcases hend with h | h
      · left; omega
      · right
        rw [stopAt_cycle W dump check s (j + 1) (by omega)]
        exact h

theorem cycleBound_pos (limit : Nat) (hl : limit < 2 ^ 64) :
    1 ≤ cycleBound limit ∧ cycleBound limit ≤ 2 ^ 64 := by
  unfold cycleBound
  split <;> omega

/-- `run` returns, after the first cycle `j ≥ 1` at which the counter reaches zero
(`j = cycleBound limit`) or whose entry sample of the stop condition is true. -/
theorem run_eq (W : Testbench M H) (limit : Nat) (dump check : Bool) (s : Sim M H)
    (hl : limit < 2 ^ 64) :
    ∃ j, 1 ≤ j ∧ j ≤ cycleBound limit ∧
      run W limit dump check s = some ((cycle W dump)^[j] s) ∧
      (j = cycleBound limit ∨ stopAt W dump check s j = true) ∧
      (∀ i, 1 ≤ i → i < j → i ≠ cycleBound limit ∧ stopAt W dump check s i = false) := by
  have hN := cycleBound_pos limit hl
  have hex : ∃ j, 1 ≤ j ∧ (j = cycleBound limit ∨ stopAt W dump check s j = true) :=
    ⟨cycleBound limit, hN.1, Or.inl rfl⟩
  have hspec := Nat.find_spec hex
  have hle : Nat.find hex ≤ cycleBound limit := Nat.find_min' hex ⟨hN.1, Or.inl rfl⟩
  have hmin : ∀ i, 1 ≤ i → i < Nat.find hex →
      i ≠ cycleBound limit ∧ stopAt W dump check s i = false := by
    intro i hi1 hij
    have hnot := Nat.find_min hex hij
    constructor
    · intro h; exact hnot ⟨hi1, Or.inl h⟩
    · cases hs : stopAt W dump check s i
      · rfl
      · exact absurd ⟨hi1, Or.inr hs⟩ hnot
  obtain ⟨k, hk⟩ : ∃ k, Nat.find hex = k + 1 := ⟨Nat.find hex - 1, by omega⟩
  refine ⟨Nat.find hex, hspec.1, hle, ?_, hspec.2, hmin⟩
  unfold run
  rw [hk] at hspec hle hmin ⊢
  exact runLoop_eq W dump check k (2 ^ 64) limit s hl hle (by omega)
    (fun i hi1 hik => (hmin i hi1 (by omega)).2) hspec.2
theorem samplesIn_append (l₁ l₂ : List Event) :
    samplesIn (l₁ ++ l₂) = samplesIn l₁ ++ samplesIn l₂ := by
  unfold samplesIn
  exact List.filterMap_append _ _ _

theorem evalsIn_append (l₁ l₂ : List Event) :
    evalsIn (l₁ ++ l₂) = evalsIn l₁ + evalsIn l₂ := by
  unfold evalsIn
  exact List.count_append _ _ _

theorem tickSteps_of_pos (count : Int) (h : 1 ≤ count) : tickSteps count = count.toNat := by
  unfold tickSteps
  rw [if_pos (by omega)]

theorem tickSteps_zero : tickSteps 0 = 2 ^ 32 := by decide

/-- C10. For every `count ≥ 1` (an `int`, so below `2 ^ 31`), `tick(count, dump)` returns after
exactly `count` iterations of its body: the model is evaluated `count` times, `main_time` is
increased by `count` (in 64-bit unsigned arithmetic), and one trace sample per step is written
exactly when a trace writer is open and `dump` is true, none otherwise; each sample is stamped
with the time after the increment, the first one with `t + 1`. With `count = 0` the body still
runs before the counter is decremented and tested, the decrement gives `-1`, and the loop goes
on: it ends only after `2 ^ 32` steps, the counter having wrapped around. -/
theorem tick_runs_count_steps (W : Testbench M H) (count : Int) (dump : Bool) (s : Sim M H)
    (h1 : 1 ≤ count) (h2 : count < 2 ^ 31) :
    ∃ s1 : Sim M H, tick W count dump s = some s1 ∧
      s1 = (tickBody W dump)^[count.toNat] s ∧
      s1.ptop = W.eval^[count.toNat] s.ptop ∧
      evalsIn s1.log = evalsIn s.log + count.toNat ∧
      s1.main_time = (s.main_time + count.toNat) % 2 ^ 64 ∧
      s1.log = s.log ++ tickLog (s.tfp && dump) s.main_time count.toNat ∧
      samplesIn s1.log = samplesIn s.log ++
        (if s.tfp && dump then (List.range count.toNat).map (fun i => (s.main_time + i + 1) % 2 ^ 64)
         else []) ∧
      (∀ fuel : Nat, tickLoop W (fuel + 1) 0 dump s
        = tickLoop W fuel (-1) dump (tickBody W dump s)) ∧
      tick W 0 dump s = some ((tickBody W dump)^[2 ^ 32] s) ∧
      evalsIn ((tickBody W dump)^[2 ^ 32] s).log = evalsIn s.log + 2 ^ 32 := by
  have hpos : count.toNat ≠ 0 := by omega
  refine ⟨(tickBody W dump)^[count.toNat] s, ?_, rfl, ?_, ?_, ?_, ?_, ?_, ?_, ?_, ?_⟩
  · rw [tick_eq W dump count s (by omega) h2, tickSteps_of_pos count h1]
  · exact iterate_tickBody_ptop W dump _ s
  · rw [iterate_tickBody_log, evalsIn_append, evalsIn_tickLog]
  · rw [iterate_tickBody_main_time, if_neg hpos]
  · exact iterate_tickBody_log W dump _ s
  · rw [iterate_tickBody_log, samplesIn_append, samplesIn_tickLog]
  · intro fuel
    rw [tickLoop]
    rfl
  · rw [tick_eq W dump 0 s (by norm_num) (by norm_num), tickSteps_zero]
  · rw [iterate_tickBody_log, evalsIn_append, evalsIn_tickLog]

theorem tick_runs_count_steps_witness :
    (1 : Int) ≤ 5 ∧ (5 : Int) < 2 ^ 31 ∧
    ∃ s1 : Sim Unit Unit, tick idleBench 5 true { initial with tfp := true } = some s1 ∧
      evalsIn s1.log = 5 ∧ s1.main_time = 5 ∧ samplesIn s1.log = [1, 2, 3, 4, 5] := by
  refine ⟨by decide, by decide, ?_⟩
  obtain ⟨s1, h, _, _, he, ht, _, hs, _⟩ :=
    tick_runs_count_steps idleBench 5 true { initial with tfp := true } (by decide) (by decide)
  exact ⟨s1, h, he, ht, hs⟩

theorem stopAt_unchecked (W : Testbench M H) (dump : Bool) (s : Sim M H) (j : Nat) :
    stopAt W dump false s j = false := rfl

/-- C8. For every `limit ≥ 1`, `run(limit, dump, false)` returns after exactly `limit` clock
cycles. Each cycle sets `clk = 1`, calls `onRisingEdge`, performs `PHASE_LENGTH` model steps,
sets `clk = 0`, calls `onFallingEdge` once, which ticks the DMI handler once when one is
installed and does nothing otherwise, and performs `PHASE_LENGTH` more steps; the handler is
ticked nowhere else, so `limit` times over the call (never, without a handler), and `main_time`
advances by `2 * PHASE_LENGTH * limit` (in 64-bit unsigned arithmetic). -/
theorem run_unchecked_cycles (W : Testbench M H) (limit : Nat) (dump : Bool) (s : Sim M H)
    (h1 : 1 ≤ limit) (h2 : limit < 2 ^ 64) :
    ∃ s1 : Sim M H, run W limit dump false s = some s1 ∧
      s1 = (cycle W dump)^[limit] s ∧
      cyclesIn s1.log = cyclesIn s.log + limit ∧
      dmiTicksIn s1.log = dmiTicksIn s.log + (if s.dmiHandler.isSome then limit else 0) ∧
      evalsIn s1.log = evalsIn s.log + 2 * PHASE_LENGTH.toNat * limit ∧
      s1.main_time = (s.main_time + 2 * PHASE_LENGTH.toNat * limit) % 2 ^ 64 ∧
      (∀ c : Sim M H, runBody W dump false c = some (cycle W dump c, false)) ∧
      (∀ c : Sim M H, (cycle W dump c).log = c.log ++
        ([Event.clk true, Event.onRisingEdge]
          ++ tickLog (c.tfp && dump) c.main_time PHASE_LENGTH.toNat
          ++ [Event.clk false, Event.onFallingEdge]
          ++ (if c.dmiHandler.isSome then [Event.dmiTick] else [])
          ++ tickLog (c.tfp && dump) (c.main_time + PHASE_LENGTH.toNat) PHASE_LENGTH.toNat
          ++ [Event.sanityChecks])) ∧
      (∀ (d : Bool) (t : Nat), evalsIn (tickLog d t PHASE_LENGTH.toNat) = PHASE_LENGTH.toNat ∧
        dmiTicksIn (tickLog d t PHASE_LENGTH.toNat) = 0) ∧
      (∀ c : Sim M H, c.dmiHandler = none →
        onFallingEdge W c = { c with log := c.log ++ [Event.onFallingEdge] }) := by
  obtain ⟨j, hj1, hjN, hrun, hend, _⟩ := run_eq W limit dump false s h2
  have hN : cycleBound limit = limit := by
    unfold cycleBound
    rw [if_neg (by omega)]
  have hj : j = limit := by
    rcases hend with h | h
    · rw [h, hN]
    · rw [stopAt_unchecked] at h
      cases h
  subst hj
  have hpos : j ≠ 0 := by omega
  refine ⟨(cycle W dump)^[j] s, hrun, rfl, iterate_cycle_cyclesIn W dump j s,
    iterate_cycle_dmiTicksIn W dump j s, ?_, ?_, ?_, ?_, ?_, ?_⟩
  · rw [iterate_cycle_evalsIn, PHASE_LENGTH_toNat]
  · rw [iterate_cycle_main_time, if_neg hpos, PHASE_LENGTH_toNat]
  · intro c
    exact runBody_eq W dump false c
  · intro c
    rw [PHASE_LENGTH_toNat]
    exact cycle_log W dump c
  · intro d t
    exact ⟨evalsIn_tickLog d t _, dmiTicksIn_tickLog d t _⟩
  · intro c hc
    exact onFallingEdge_none W c hc

theorem run_unchecked_cycles_witness :
    1 ≤ 100 ∧ 100 < 2 ^ 64 ∧
    ∃ s1 : Sim Unit Unit, run idleBench 100 false false { initial with dmiHandler := some () }
        = some s1 ∧
      cyclesIn s1.log = 100 ∧ dmiTicksIn s1.log = 100 ∧ s1.main_time = 1000 := by
  refine ⟨by decide, by norm_num, ?_⟩
  obtain ⟨s1, h, _, hc, hd, _, ht, _⟩ :=
    run_unchecked_cycles idleBench 100 false { initial with dmiHandler := some () }
      (by decide) (by norm_num)
  exact ⟨s1, h, hc, hd, ht⟩

/-- C9 (amended). The number of clock cycles executed by `run(limit, dump, check)` is the
smallest `j ≥ 1` such that `j = N`, where `N = limit` when `limit ≥ 1` and `N = 2 ^ 64` when
`limit = 0` (the counter wraps to `2 ^ 64 - 1` on its first decrement), or `check` is true and
the stop condition sampled at the start of cycle `j` is true. So at least one full cycle is
executed even when the stop condition holds on entry, the cycle whose entry sample saw the stop
condition runs to completion, and `run(0, dump, true)` ends on the stop condition or, when that
never holds, on the counter after `2 ^ 64` cycles. -/
theorem run_cycle_count (W : Testbench M H) (limit : Nat) (dump check : Bool) (s : Sim M H)
    (hl : limit < 2 ^ 64) :
    ∃ j : Nat, 1 ≤ j ∧
      run W limit dump check s = some ((cycle W dump)^[j] s) ∧
      cyclesIn ((cycle W dump)^[j] s).log = cyclesIn s.log + j ∧
      (j = cycleBound limit ∨
        (check = true ∧ stopCondition W ((cycle W dump)^[j - 1] s) = true)) ∧
      (∀ i, 1 ≤ i → i < j → i ≠ cycleBound limit ∧
        ¬ (check = true ∧ stopCondition W ((cycle W dump)^[i - 1] s) = true)) ∧
      cycleBound limit = (if limit = 0 then 2 ^ 64 else limit) ∧
      (0 + 2 ^ 64 - 1) % 2 ^ 64 = 2 ^ 64 - 1 ∧
      (check = true → stopCondition W s = true → j = 1) ∧
      (limit = 0 → check = true →
        j = 2 ^ 64 ∨ stopCondition W ((cycle W dump)^[j - 1] s) = true) := by
  obtain ⟨j, hj1, hjN, hrun, hend, hmin⟩ := run_eq W limit dump check s hl
  have hstop : ∀ i, stopAt W dump check s i = true ↔
      (check = true ∧ stopCondition W ((cycle W dump)^[i - 1] s) = true) := by
    intro i
    unfold stopAt
    exact Bool.and_eq_true_iff
  refine ⟨j, hj1, hrun, iterate_cycle_cyclesIn W dump j s, ?_, ?_, rfl, by norm_num, ?_, ?_⟩
  · rcases hend with h | h
    · exact Or.inl h
    · exact Or.inr ((hstop j).1 h)
  · intro i hi1 hij
    have h := hmin i hi1 hij
    refine ⟨h.1, fun hc => ?_⟩
    rw [(hstop i).2 hc] at h
    exact Bool.noConfusion h.2
  · intro hc hs
    by_contra hne
    have h := (hmin 1 (le_refl 1) (by omega)).2
    rw [stopAt_one, hc, hs] at h
    exact Bool.noConfusion h
  · intro h0 hc
    rcases hend with h | h
    · left
      rw [h, h0]
      rfl
    · exact Or.inr ((hstop j).1 h).2

theorem run_cycle_count_witness :
    3 < 2 ^ 64 ∧
    ∃ j : Nat, 1 ≤ j ∧
      run idleBench 3 true true { initial with runSim := false }
        = some ((cycle idleBench true)^[j] { initial with runSim := false }) ∧
      j = 1 := by
  refine ⟨by norm_num, ?_⟩
  obtain ⟨j, hj1, hrun, _, _, _, _, _, hentry, _⟩ :=
    run_cycle_count idleBench 3 true true { initial with runSim := false } (by norm_num)
  exact ⟨j, hj1, hrun, hentry rfl rfl⟩

theorem onFallingEdge_idle_runSim (s : Sim Unit Unit) :
    (onFallingEdge idleBench s).runSim = s.runSim := by
  unfold onFallingEdge
  dsimp only
  split <;> rfl

theorem cycle_idle_runSim (dump : Bool) (s : Sim Unit Unit) :
    (cycle idleBench dump s).runSim = s.runSim := by
  unfold cycle
  show ((tickBody idleBench dump)^[_] _).runSim = _
  rw [iterate_tickBody_runSim, onFallingEdge_idle_runSim]
  show ((tickBody idleBench dump)^[_] _).runSim = _
  rw [iterate_tickBody_runSim]
  rfl

theorem iterate_cycle_idle_runSim (dump : Bool) (j : Nat) (s : Sim Unit Unit) :
    ((cycle idleBench dump)^[j] s).runSim = s.runSim := by
  induction j with
  | zero => rfl
  | succ j ih => rw [Function.iterate_succ_apply', cycle_idle_runSim, ih]

theorem stopCondition_idle (dump : Bool) (j : Nat) :
    stopCondition idleBench ((cycle idleBench dump)^[j] initial) = false := by
  unfold stopCondition
  rw [iterate_cycle_idle_runSim]
  rfl

/-- Counterexample to C9 as stated: with a model that never finishes and `runSim` left true,
`run(0, true, true)` does return, after `2 ^ 64` cycles, although the stop condition is false
at the start of every cycle: the run ended on the counter, not on the stop condition. -/
theorem run_zero_ends_on_counter :
    run idleBench 0 true true initial = some ((cycle idleBench true)^[2 ^ 64] initial) ∧
    ¬ ∃ j : Nat, stopCondition idleBench ((cycle idleBench true)^[j] initial) = true := by
  constructor
  · obtain ⟨j, _, _, hrun, hend, _⟩ := run_eq idleBench 0 true true initial (by norm_num)
    have hj : j = 2 ^ 64 := by
      rcases hend with h | h
      · rw [h]; rfl
      · unfold stopAt at h
        rw [stopCondition_idle] at h
        exact Bool.noConfusion h
    rw [hrun, hj]
  · rintro ⟨j, hj⟩
    rw [stopCondition_idle] at hj
    exact Bool.noConfusion hj

end sim
